import Mathlib

/-!
Formal model of the recipe discovery application (`src/app.py`).

The parts of the program the claims concern are translated into Lean:
Python JSON values become the inductive `PyVal`; an HTTP call outcome
becomes `HttpResp`; code that may raise an uncaught Python exception is
modelled in `Except Unit` (`.error ()` marks an exception propagating out
of the function).  Network requests are represented by passing the
provider response as an explicit argument: the URL/parameter construction
in the source only shapes the outbound request and is not modelled.
-/

/-- A Python value as it appears after `response.json()` parsing:
`None`, booleans, integers, strings, lists and string-keyed dicts.
(The program never manipulates float JSON fields on the modelled paths.) -/
inductive PyVal where
  | none
  | bool (b : Bool)
  | int (n : Int)
  | str (s : String)
  | list (xs : List PyVal)
  | dict (kvs : List (String × PyVal))

mutual

/-- Structural equality on Python values (`==` on JSON-shaped data). -/
def PyVal.beq : PyVal → PyVal → Bool
  | .none, .none => true
  | .bool a, .bool b => a == b
  | .int a, .int b => a == b
  | .str a, .str b => a == b
  | .list xs, .list ys => PyVal.beqList xs ys
  | .dict a, .dict b => PyVal.beqDict a b
  | _, _ => false

/-- Elementwise equality of value lists. -/
def PyVal.beqList : List PyVal → List PyVal → Bool
  | [], [] => true
  | x :: xs, y :: ys => PyVal.beq x y && PyVal.beqList xs ys
  | _, _ => false

/-- Elementwise equality of key/value lists. -/
def PyVal.beqDict : List (String × PyVal) → List (String × PyVal) → Bool
  | [], [] => true
  | (k1, v1) :: xs, (k2, v2) :: ys => k1 == k2 && PyVal.beq v1 v2 && PyVal.beqDict xs ys
  | _, _ => false

end

mutual

def PyVal.beq_iff : ∀ (a b : PyVal), PyVal.beq a b = true ↔ a = b
  | .none, .none => by simp [PyVal.beq]
  | .bool a, .bool b => by simp [PyVal.beq]
  | .int a, .int b => by simp [PyVal.beq]
  | .str a, .str b => by simp [PyVal.beq]
  | .list xs, .list ys => by
    simpa [PyVal.beq] using PyVal.beqList_iff xs ys
  | .dict a, .dict b => by
    simpa [PyVal.beq] using PyVal.beqDict_iff a b
  | .none, .bool _ | .none, .int _ | .none, .str _ | .none, .list _ | .none, .dict _
  | .bool _, .none | .bool _, .int _ | .bool _, .str _ | .bool _, .list _ | .bool _, .dict _
  | .int _, .none | .int _, .bool _ | .int _, .str _ | .int _, .list _ | .int _, .dict _
  | .str _, .none | .str _, .bool _ | .str _, .int _ | .str _, .list _ | .str _, .dict _
  | .list _, .none | .list _, .bool _ | .list _, .int _ | .list _, .str _ | .list _, .dict _
  | .dict _, .none | .dict _, .bool _ | .dict _, .int _ | .dict _, .str _ | .dict _, .list _ => by
    simp [PyVal.beq]

def PyVal.beqList_iff : ∀ (xs ys : List PyVal), PyVal.beqList xs ys = true ↔ xs = ys
  | [], [] => by simp [PyVal.beqList]
  | [], _ :: _ => by simp [PyVal.beqList]
  | _ :: _, [] => by simp [PyVal.beqList]
  | x :: xs, y :: ys => by
    simp [PyVal.beqList, PyVal.beq_iff x y, PyVal.beqList_iff xs ys]

def PyVal.beqDict_iff :
    ∀ (a b : List (String × PyVal)), PyVal.beqDict a b = true ↔ a = b
  | [], [] => by simp [PyVal.beqDict]
  | [], _ :: _ => by simp [PyVal.beqDict]
  | (_, _) :: _, [] => by simp [PyVal.beqDict]
  | (k1, v1) :: xs, (k2, v2) :: ys => by
    simp [PyVal.beqDict, PyVal.beq_iff v1 v2, PyVal.beqDict_iff xs ys, and_assoc]

end

instance : BEq PyVal := ⟨PyVal.beq⟩

instance : LawfulBEq PyVal where
  eq_of_beq h := (PyVal.beq_iff _ _).1 h
  rfl := (PyVal.beq_iff _ _).2 rfl

instance : DecidableEq PyVal :=
  fun a b => decidable_of_iff (PyVal.beq a b = true) (PyVal.beq_iff a b)

/-- First-match lookup in a dict's key/value list (Python dict keys are
unique, so first match is the binding). -/
def dictLookup (kvs : List (String × PyVal)) (k : String) : Option PyVal :=
  (kvs.find? (fun kv => kv.1 == k)).map (fun kv => kv.2)

/-- Python truthiness (`if v:`). -/
def PyVal.truthy : PyVal → Bool
  | .none => false
  | .bool b => b
  | .int n => n != 0
  | .str s => !s.isEmpty
  | .list xs => !xs.isEmpty
  | .dict kvs => !kvs.isEmpty

/-- `v[k]` on a Python value: `KeyError` when the key is missing,
`TypeError` when `v` is not a dict (string subscripts need a dict). -/
def PyVal.getItem (v : PyVal) (k : String) : Except Unit PyVal :=
  match v with
  | .dict kvs =>
    match dictLookup kvs k with
    | some x => .ok x
    | Option.none => .error ()
  | _ => .error ()

/-- `v.get(k, d)`: `AttributeError` when `v` is not a dict. -/
def PyVal.dictGet (v : PyVal) (k : String) (d : PyVal) : Except Unit PyVal :=
  match v with
  | .dict kvs => .ok ((dictLookup kvs k).getD d)
  | _ => .error ()

/-- `k in v` for a dict (the source always guards this with
`isinstance(v, dict)`, so non-dicts yield `false` here). -/
def PyVal.hasKey (v : PyVal) (k : String) : Bool :=
  match v with
  | .dict kvs => (dictLookup kvs k).isSome
  | _ => false

/-- `isinstance(v, dict)`. -/
def PyVal.isDict : PyVal → Bool
  | .dict _ => true
  | _ => false

/-- Guarded subscript: used only where the source has already checked the
key is present (or presence is immaterial); missing keys give `None`. -/
def PyVal.idx (v : PyVal) (k : String) : PyVal :=
  match v with
  | .dict kvs => (dictLookup kvs k).getD .none
  | _ => .none

mutual

/-- `repr(v)`: Python textual form, used by `str()` on containers. -/
def pyRepr : PyVal → String
  | .none => "None"
  | .bool true => "True"
  | .bool false => "False"
  | .int n => toString n
  | .str s => "\x27" ++ s ++ "\x27"
  | .list xs => "[" ++ pyReprListBody xs ++ "]"
  | .dict kvs => "\x7b" ++ pyReprDictBody kvs ++ "\x7d"

/-- Comma-joined reprs of list elements. -/
def pyReprListBody : List PyVal → String
  | [] => ""
  | [x] => pyRepr x
  | x :: y :: xs => pyRepr x ++ ", " ++ pyReprListBody (y :: xs)

/-- Comma-joined reprs of dict entries. -/
def pyReprDictBody : List (String × PyVal) → String
  | [] => ""
  | [(k, v)] => "\x27" ++ k ++ "\x27: " ++ pyRepr v
  | (k, v) :: kv :: kvs => "\x27" ++ k ++ "\x27: " ++ pyRepr v ++ ", " ++ pyReprDictBody (kv :: kvs)

end

/-- `str(v)`: equals `pyRepr` except that strings print without quotes. -/
def pyStr : PyVal → String
  | .str s => s
  | v => pyRepr v

/-- Python substring test `needle in hay` on strings: prefix check. -/
def charsStartWith : List Char → List Char → Bool
  | [], _ => true
  | _ :: _, [] => false
  | a :: as, b :: bs => a == b && charsStartWith as bs

/-- Python substring test `needle in hay` on strings: occurrence anywhere. -/
def charsContain (n : List Char) (h : List Char) : Bool :=
  match h with
  | [] => charsStartWith n []
  | _ :: t => charsStartWith n h || charsContain n t

/-- Python `needle in hay` for strings. -/
def strIn (needle hay : String) : Bool :=
  charsContain needle.data hay.data

/-- Python `s.lower()`, characterwise (the program only lowercases ASCII
query/region/condition text). -/
def pyLower (s : String) : String := String.mk (s.data.map Char.toLower)

/-- Python `s.strip()`: drop leading and trailing whitespace. -/
def pyStrip (s : String) : String :=
  String.mk (List.reverse (List.dropWhile Char.isWhitespace
    (List.reverse (List.dropWhile Char.isWhitespace s.data))))

/-- Left-to-right effectful map: a Python list comprehension whose body
may raise; the first exception aborts the whole comprehension. -/
def mapExcept (f : α → Except Unit β) : List α → Except Unit (List β)
  | [] => .ok []
  | a :: as => do
    let b ← f a
    let bs ← mapExcept f as
    .ok (b :: bs)

/-- One outcome of an outbound HTTP call: either the request raised
`requests.RequestException`, or a status code plus parsed JSON body. -/
inductive HttpResp where
  | exn
  | resp (status : Nat) (body : PyVal)

/-- The normalized recipe record `{id, title, source, image}` built by the
suggestion functions.  `id` holds the computed id value, `title` and
`image` hold whatever Python value the source expression produced, and
`source` is the literal source tag. -/
structure Recipe where
  id : PyVal
  title : PyVal
  source : String
  image : PyVal
deriving DecidableEq

/-- Placeholder image URL used throughout the source. -/
def default_recipe_image : String := "/static/assets/default_recipe.jpg"

/-- One element of the Spoonacular result mapping (`app.py` lines 125 and
149): `{"id": str(r["id"]), "title": r["title"], "source": "spoonacular",
"image": r.get("image", placeholder)}`, evaluated left to right. -/
def normalizeSpoonacular (r : PyVal) : Except Unit Recipe := do
  let idv ← r.getItem "id"
  let titlev ← r.getItem "title"
  let imagev ← r.dictGet "image" (.str default_recipe_image)
  .ok { id := .str (pyStr idv), title := titlev, source := "spoonacular", image := imagev }

/-- `for r in v`: lists yield elements, strings their characters, dicts
their keys; other values raise `TypeError`. -/
def pyIterate (v : PyVal) : Except Unit (List PyVal) :=
  match v with
  | .list xs => .ok xs
  | .str s => .ok (s.data.map (fun c => .str (String.singleton c)))
  | .dict kvs => .ok (kvs.map (fun kv => .str kv.1))
  | _ => .error ()

/-- `suggest_western_recipes_by_name` (`app.py` lines 104-128) as a
function of the provider response.  Query/number/max_time/diet only shape
the outbound request parameters, which are not modelled.  A transport
error or non-200 status returns `[]`; on a 200 the body is normalized,
and a body of unexpected shape raises an uncaught exception (only
`requests.RequestException` is caught in the source). -/
def suggest_western_recipes_by_name (response : HttpResp) : Except Unit (List Recipe) :=
  match response with
  | .exn => .ok []
  | .resp status body =>
    if status != 200 then .ok []
    else do
      let results ← body.dictGet "results" (.list [])
      let items ← pyIterate results
      mapExcept normalizeSpoonacular items

/-- `suggest_western_recipes_by_ingredients` (`app.py` lines 131-152):
identical handling except the 200 body itself is the record list. -/
def suggest_western_recipes_by_ingredients (response : HttpResp) : Except Unit (List Recipe) :=
  match response with
  | .exn => .ok []
  | .resp status body =>
    if status != 200 then .ok []
    else do
      let items ← pyIterate body
      mapExcept normalizeSpoonacular items

/-- The Fallback Catalog (`app.py` lines 162-217): six curated recipes as
Python dicts, in source order. -/
def fallback_recipes : List PyVal :=
  [ .dict
      [ ("id", .str "rendang"),
        ("title", .str "Beef Rendang"),
        ("source", .str "fallback"),
        ("image", .str "https://www.themealdb.com/images/media/meals/ypxrvg1515362401.jpg"),
        ("region", .str "Sumatra"),
        ("ingredients", .list
          [ .str "500g beef", .str "400ml coconut milk", .str "2 lemongrass stalks",
            .str "5 kaffir lime leaves", .str "2 turmeric leaves", .str "10 shallots",
            .str "5 garlic cloves", .str "5 red chilies", .str "1 inch ginger",
            .str "1 inch galangal", .str "1 tsp turmeric powder", .str "Salt to taste" ]),
        ("instructions", .str "Blend shallots, garlic, chilies, ginger, galangal, and turmeric into a paste. Cook the paste with lemongrass, lime leaves, and turmeric leaves until fragrant. Add beef and coconut milk, simmer for 3-4 hours until the sauce thickens and the beef is tender. Season with salt.") ],
    .dict
      [ ("id", .str "soto"),
        ("title", .str "Soto Ayam"),
        ("source", .str "fallback"),
        ("image", .str "https://www.themealdb.com/images/media/meals/8mpqzz1508507655.jpg"),
        ("region", .str "Java"),
        ("ingredients", .list
          [ .str "500g chicken", .str "2L water", .str "2 lemongrass stalks",
            .str "3 kaffir lime leaves", .str "2 bay leaves", .str "5 shallots",
            .str "3 garlic cloves", .str "1 inch ginger", .str "1 tsp turmeric powder",
            .str "1 tsp coriander powder", .str "Salt to taste", .str "Vermicelli noodles",
            .str "Boiled eggs", .str "Lime wedges" ]),
        ("instructions", .str "Boil chicken in water with lemongrass, lime leaves, and bay leaves. Blend shallots, garlic, ginger, turmeric, and coriander into a paste. Sauté the paste until fragrant, then add to the broth. Simmer for 30 minutes. Shred the chicken. Serve with vermicelli, boiled eggs, and lime wedges.") ],
    .dict
      [ ("id", .str "gudeg"),
        ("title", .str "Gudeg Jogja"),
        ("source", .str "fallback"),
        ("image", .str "https://www.themealdb.com/images/media/meals/1529445893.jpg"),
        ("region", .str "Java"),
        ("ingredients", .list
          [ .str "1kg young jackfruit", .str "500ml coconut milk", .str "200g palm sugar",
            .str "5 shallots", .str "3 garlic cloves", .str "5 candlenuts",
            .str "1 tsp coriander powder", .str "2 bay leaves", .str "2 teak leaves",
            .str "Salt to taste" ]),
        ("instructions", .str "Boil jackfruit until tender. Blend shallots, garlic, candlenuts, and coriander into a paste. Cook the paste with coconut milk, palm sugar, bay leaves, teak leaves, and jackfruit. Simmer for 4-5 hours until the jackfruit is soft and the sauce thickens. Season with salt.") ],
    .dict
      [ ("id", .str "satay"),
        ("title", .str "Chicken Satay"),
        ("source", .str "fallback"),
        ("image", .str "https://www.themealdb.com/images/media/meals/1526418975.jpg"),
        ("region", .str "Java"),
        ("ingredients", .list
          [ .str "500g chicken", .str "2 tbsp soy sauce", .str "2 tbsp peanut butter",
            .str "1 tbsp lime juice", .str "5 shallots", .str "3 garlic cloves",
            .str "1 tsp turmeric powder", .str "1 tsp coriander powder", .str "Skewers" ]),
        ("instructions", .str "Blend shallots, garlic, turmeric, and coriander into a paste. Marinate chicken with the paste, soy sauce, peanut butter, and lime juice for 1 hour. Skewer the chicken and grill until cooked. Serve with peanut sauce.") ],
    .dict
      [ ("id", .str "nasi_goreng"),
        ("title", .str "Nasi Goreng"),
        ("source", .str "fallback"),
        ("image", .str "https://www.themealdb.com/images/media/meals/1529445893.jpg"),
        ("region", .str "Java"),
        ("ingredients", .list
          [ .str "2 cups cooked rice", .str "100g chicken", .str "2 eggs",
            .str "5 shallots", .str "3 garlic cloves", .str "2 red chilies",
            .str "1 tbsp soy sauce", .str "1 tbsp sweet soy sauce", .str "Salt to taste",
            .str "Fried shallots" ]),
        ("instructions", .str "Blend shallots, garlic, and chilies into a paste. Sauté the paste until fragrant. Add chicken and cook until done. Push to the side, scramble the eggs. Add rice, soy sauce, sweet soy sauce, and salt. Stir-fry until mixed. Garnish with fried shallots.") ],
    .dict
      [ ("id", .str "soto_banjar"),
        ("title", .str "Soto Banjar"),
        ("source", .str "fallback"),
        ("image", .str "https://www.themealdb.com/images/media/meals/8mpqzz1508507655.jpg"),
        ("region", .str "Kalimantan Selatan"),
        ("ingredients", .list
          [ .str "500g chicken", .str "2L water", .str "2 lemongrass stalks",
            .str "3 kaffir lime leaves", .str "2 cloves", .str "2 star anise",
            .str "5 shallots", .str "3 garlic cloves", .str "1 inch ginger",
            .str "1 tsp turmeric powder", .str "Salt to taste", .str "Rice cakes",
            .str "Boiled eggs" ]),
        ("instructions", .str "Boil chicken with lemongrass, lime leaves, cloves, and star anise. Blend shallots, garlic, ginger, and turmeric into a paste. Sauté the paste until fragrant, then add to the broth. Simmer for 30 minutes. Shred the chicken. Serve with rice cakes and boiled eggs.") ] ]

/-- `r.get(k, d)` under an `isinstance(r, dict)` guard (non-dicts only
reach this behind a guard that already evaluated to `False`). -/
def pyGetD (r : PyVal) (k : String) (d : PyVal) : PyVal :=
  match r with
  | .dict kvs => (dictLookup kvs k).getD d
  | _ => d

/-- `.lower()` of a field value; every record shape reaching the calls of
this helper stores strings in the accessed fields, modelled through the
string denotation `pyStr`. -/
def pyLowerStr (v : PyVal) : String := pyLower (pyStr v)

/-- `recipe["title"].lower()` of a Fallback Catalog entry. -/
def fallbackTitleLower (r : PyVal) : String := pyLower (pyStr (r.idx "title"))

/-- The region predicate of `app.py` lines 252-258: case-insensitive
substring match against `strArea`, `strCategory`, `strMeal`, or exact
case-insensitive equality with the explicit `region` field. -/
def regionMatches (reg : String) (r : PyVal) : Bool :=
  let rl := pyLower reg
  (r.isDict && strIn rl (pyLowerStr (pyGetD r "strArea" (.str ""))))
  || (r.isDict && strIn rl (pyLowerStr (pyGetD r "strCategory" (.str ""))))
  || (r.isDict && strIn rl (pyLowerStr (pyGetD r "strMeal" (.str ""))))
  || (r.isDict && (pyLowerStr (pyGetD r "region" (.str "")) == rl))

/-- Extraction of the TheMealDB result list (`app.py` lines 220-244):
non-200 status or a non-dict body yield `[]`; `data.get("meals", []) or
[]` replaces a falsy `meals` value by `[]`; the logging pass over the
results (`meal.get("strMealThumb")`) raises when the value is not a list
of dicts.  The source's `if results is None` branch is unreachable after
`or []` and has no counterpart here. -/
def mealdbResultsCore (status : Nat) (body : PyVal) : Except Unit (List PyVal) :=
  if status != 200 then .ok []
  else
    match body with
    | .dict kvs =>
      let meals := (dictLookup kvs "meals").getD (.list [])
      let results := if meals.truthy then meals else .list []
      do
        let items ← pyIterate results
        _ ← mapExcept (fun meal => meal.dictGet "strMealThumb" .none) items
        .ok items
    | _ => .ok []

/-- The image expression of the result mapping (`app.py` line 275):
`r["strMealThumb"]` when present and truthy, else `r["image"]` when
truthy via `r.get`, else the placeholder. -/
def mealdbImage (r : PyVal) : PyVal :=
  if r.isDict && r.hasKey "strMealThumb" && (r.idx "strMealThumb").truthy then
    r.idx "strMealThumb"
  else if r.isDict && (pyGetD r "image" .none).truthy then
    r.idx "image"
  else
    .str default_recipe_image

/-- One element of the TheMealDB/fallback result mapping (`app.py` lines
270-278), fields evaluated left to right; missing `idMeal`/`id` or
`strMeal`/`title` keys raise `KeyError`. -/
def normalizeMealdb (r : PyVal) : Except Unit Recipe := do
  let idv ← (if r.isDict && r.hasKey "idMeal" then r.getItem "idMeal" else r.getItem "id")
  let titlev ← (if r.isDict && r.hasKey "strMeal" then r.getItem "strMeal" else r.getItem "title")
  let src := if r.isDict && r.hasKey "idMeal" then "themealdb" else "fallback"
  .ok { id := .str (pyStr idv), title := titlev, source := src, image := mealdbImage r }

/-- The last-resort fallback formatting (`app.py` lines 283-291 and
297-305): raw `id`/`title` fields, source `"fallback"`, image replaced by
the placeholder only when falsy.  Only Fallback Catalog dicts reach it. -/
def fallbackFormat (r : PyVal) : Recipe :=
  { id := r.idx "id", title := r.idx "title", source := "fallback",
    image := if (r.idx "image").truthy then r.idx "image" else .str default_recipe_image }

/-- `suggest_indonesian_recipes_by_name` (`app.py` lines 154-305) as a
function of the provider response.  On `requests.RequestException` the
Fallback Catalog is filtered by title substring and formatted; otherwise
the extracted results (substituted from the catalog when empty) are
region-filtered, truncated, formatted, and replaced by the catalog
formatting when still empty. -/
def suggest_indonesian_recipes_by_name (response : HttpResp) (query : String)
    (region : Option String) (number : Nat) : Except Unit (List Recipe) :=
  let base_query := pyLower (pyStrip query)
  match response with
  | .exn =>
    .ok (((fallback_recipes.filter (fun r => strIn base_query (fallbackTitleLower r))).map
      fallbackFormat).take number)
  | .resp status body => do
    let results0 ← mealdbResultsCore status body
    let results1 :=
      if results0.isEmpty then
        fallback_recipes.filter (fun r => strIn base_query (fallbackTitleLower r))
      else results0
    let results2 :=
      match region with
      | some reg =>
        if !reg.isEmpty && reg != "All Regions" then
          let filtered := results1.filter (regionMatches reg)
          let filtered2 :=
            if filtered.isEmpty then
              fallback_recipes.filter (fun r =>
                strIn base_query (fallbackTitleLower r)
                  && pyLowerStr (pyGetD r "region" (.str "")) == pyLower reg)
            else filtered
          filtered2.take number
        else results1.take number
      | Option.none => results1.take number
    let formatted ← mapExcept normalizeMealdb results2
    if formatted.isEmpty then
      .ok (((fallback_recipes.filter (fun r => strIn base_query (fallbackTitleLower r))).map
        fallbackFormat).take number)
    else
      .ok formatted

/-- The four Fallback Catalog dicts whose `region` is `"Java"` (catalog
entries two through five), in catalog order; proof-side abbreviation. -/
def javaFallbackDicts : List PyVal :=
  [fallback_recipes[1], fallback_recipes[2], fallback_recipes[3], fallback_recipes[4]]

/-- Their images under the result formatting; proof-side abbreviation. -/
def javaFallbackRecipes : List Recipe :=
  [ { id := .str "soto", title := .str "Soto Ayam", source := "fallback",
      image := .str "https://www.themealdb.com/images/media/meals/8mpqzz1508507655.jpg" },
    { id := .str "gudeg", title := .str "Gudeg Jogja", source := "fallback",
      image := .str "https://www.themealdb.com/images/media/meals/1529445893.jpg" },
    { id := .str "satay", title := .str "Chicken Satay", source := "fallback",
      image := .str "https://www.themealdb.com/images/media/meals/1526418975.jpg" },
    { id := .str "nasi_goreng", title := .str "Nasi Goreng", source := "fallback",
      image := .str "https://www.themealdb.com/images/media/meals/1529445893.jpg" } ]

/-- The weather snapshot returned by the weather client (`app.py` lines
317-322 and 337-342): city, condition description, temperature in °C
(modelled as an exact rational), and the main condition word. -/
structure Weather where
  city : String
  condition : String
  temp : ℚ
  weather_main : String

/-- The provider calls made by the recommendation engine, abstracted as
an environment of pure functions (their values are fixed by the network
and database state during the request): Western search by name
(query, count), regional search by name (query, region, count), the
formatted user-recipe rows (limit), and `random.sample` together with
its library contract that it returns exactly `k` elements when the
population has at least `k`. -/
structure ProviderEnv where
  western_by_name : String → Nat → List Recipe
  indonesian_by_name : String → Option String → Nat → List Recipe
  user_recipes : Nat → List Recipe
  sample : List Recipe → Nat → List Recipe
  sample_length : ∀ (l : List Recipe) (k : Nat), k ≤ l.length → (sample l k).length = k

/-- `get_random_recipes` (`app.py` lines 347-354): pool the three sources
and sample `min(number, len(all_recipes))` of them. -/
def get_random_recipes (env : ProviderEnv) (number : Nat) : List Recipe :=
  let western := env.western_by_name "main course" number
  let indo := env.indonesian_by_name "indonesian" Option.none number
  let user_formatted := env.user_recipes number
  let all_recipes := western ++ indo ++ user_formatted
  env.sample all_recipes (min number all_recipes.length)

/-- The region-based extension (`app.py` lines 379-382): when the region
argument is truthy it is lowercased and one region-only regional
candidate list is appended. -/
def regionCandidates (env : ProviderEnv) (region : Option String) : List Recipe :=
  match region with
  | some s => if s.isEmpty then [] else env.indonesian_by_name "" (some (pyLower s)) 1
  | Option.none => []

/-- The candidate list built by
`get_recommendations_based_on_weather_and_region` before deduplication
(`app.py` lines 361-382): rain-or-cold selects soups, else hot selects
salads, else one random sample; then the region candidates.  The
source's `suggest(...) or []` is the identity on the returned list (an
empty list is falsy and `[] or []` is `[]`), so it is not written out. -/
def recCandidates (env : ProviderEnv) (weather : Weather) (region : Option String) :
    List Recipe :=
  let condition := pyLower weather.weather_main
  let temp := weather.temp
  let base :=
    if strIn "rain" condition || decide (temp < 20) then
      env.western_by_name "soup" 1 ++ env.indonesian_by_name "soto" region 1
    else if decide (temp > 30) then
      env.western_by_name "salad" 1 ++ env.indonesian_by_name "rujak" region 1
    else
      get_random_recipes env 1
  base ++ regionCandidates env region

/-- One step of the dedup loop (`app.py` lines 385-390): append the
recipe and remember its id unless the id was already seen. -/
def dedupStep (acc : List Recipe × List PyVal) (recipe : Recipe) : List Recipe × List PyVal :=
  if acc.2.contains recipe.id then acc else (acc.1 ++ [recipe], recipe.id :: acc.2)

/-- The dedup loop of `app.py` lines 384-390: keep the first occurrence
of every id, preserving order. -/
def dedupById (l : List Recipe) : List Recipe :=
  (l.foldl dedupStep ([], [])).1

/-- `get_recommendations_based_on_weather_and_region` (`app.py` lines
356-391): absent weather delegates to the random pool, otherwise the
candidates are deduplicated by id and truncated (`number` defaults to 3
at the call sites). -/
def get_recommendations_based_on_weather_and_region (env : ProviderEnv)
    (weather : Option Weather) (region : Option String) (number : Nat) : List Recipe :=
  match weather with
  | Option.none => get_random_recipes env number
  | some w => (dedupById (recCandidates env w region)).take number

/-- Recursive presentation of the dedup loop, used in proofs. -/
def dedupRec (seen : List PyVal) : List Recipe → List Recipe
  | [] => []
  | r :: rs => if seen.contains r.id then dedupRec seen rs else r :: dedupRec (r.id :: seen) rs

/-- A concrete environment used to witness the recommendation claims:
constant provider answers and `take`-based sampling. -/
def testEnv : ProviderEnv where
  western_by_name := fun _ n =>
    List.replicate n { id := .str "w", title := .str "W", source := "spoonacular", image := .str "i" }
  indonesian_by_name := fun _ _ _ => []
  user_recipes := fun _ => []
  sample := fun l k => l.take k
  sample_length := by
    intro l k h
    simp [List.length_take, Nat.min_eq_left h]

/-- One related-search entry as built by `get_related_searches` (`app.py`
lines 393-424).  Seed entries carry no `region` key and persisted rows
may store NULL `cuisine`/`region`, hence the `Option` fields; the
`is_popular` flag is written by the final pass (absent before it,
modelled as `false`). -/
structure SearchEntry where
  query : String
  cuisine : Option String
  region : Option String
  title : String
  count : Int
  is_popular : Bool
deriving DecidableEq

/-- A persisted `SearchHistory` row as consumed by the merge (`app.py`
lines 411-418). -/
structure SHRow where
  query : String
  cuisine : Option String
  region : Option String
  count : Int
deriving DecidableEq

/-- Python `str.title()`: uppercase every letter that follows a
non-letter, lowercase the rest (ASCII behaviour). -/
def pyTitleAux : List Char → Bool → List Char
  | [], _ => []
  | c :: cs, prevAlpha =>
    (if c.isAlpha then (if prevAlpha then c.toLower else c.toUpper) else c)
      :: pyTitleAux cs c.isAlpha

/-- Python `s.title()`. -/
def pyTitle (s : String) : String := String.mk (pyTitleAux s.data false)

/-- The fixed curated seed list (`app.py` lines 395-401), in source
order. -/
def relatedSeedBase : List SearchEntry :=
  [ { query := "soto", cuisine := some "indonesian", region := Option.none,
      title := "Soto Ayam", count := 10, is_popular := false },
    { query := "salad", cuisine := some "western", region := Option.none,
      title := "Fresh Salad", count := 8, is_popular := false },
    { query := "rendang", cuisine := some "indonesian", region := some "Sumatra",
      title := "Beef Rendang", count := 12, is_popular := false },
    { query := "pasta", cuisine := some "western", region := Option.none,
      title := "Creamy Pasta", count := 7, is_popular := false },
    { query := "gudeg", cuisine := some "indonesian", region := some "Java",
      title := "Gudeg Jogja", count := 9, is_popular := false } ]

/-- The conditionally prepended rainy-weather entry (`app.py` line 403). -/
def soupSeedEntry : SearchEntry :=
  { query := "soup", cuisine := some "western", region := Option.none,
    title := "Warm Soup", count := 15, is_popular := false }

/-- The seed list after the weather check (`app.py` lines 402-403): the
soup entry is prepended exactly when the current weather's main
condition mentions rain. -/
def relatedSeed (weather : Option Weather) : List SearchEntry :=
  match weather with
  | some w =>
    if strIn "rain" (pyLower w.weather_main) then soupSeedEntry :: relatedSeedBase
    else relatedSeedBase
  | Option.none => relatedSeedBase

/-- Conversion of a persisted row to a merge entry (`app.py` lines
411-418): the displayed title is the title-cased query. -/
def convertRow (r : SHRow) : SearchEntry :=
  { query := r.query, cuisine := r.cuisine, region := r.region,
    title := pyTitle r.query, count := r.count, is_popular := false }

/-- One insertion into the dict keyed by query text (`app.py` line 420):
an existing key keeps its position but its value is overwritten; a new
key is appended. -/
def upsertByQuery (acc : List SearchEntry) (e : SearchEntry) : List SearchEntry :=
  if acc.any (fun x => x.query == e.query) then
    acc.map (fun x => if x.query == e.query then e else x)
  else acc ++ [e]

/-- `{s["query"]: s for s in searches}.values()`: key order is first
occurrence, value is the last write. -/
def dictDedupByQuery (l : List SearchEntry) : List SearchEntry :=
  l.foldl upsertByQuery []

/-- Stable insertion for the descending sort: a new element goes after
every already-placed element of greater or equal count. -/
def insertByCountDesc (e : SearchEntry) : List SearchEntry → List SearchEntry
  | [] => [e]
  | x :: xs => if e.count ≤ x.count then x :: insertByCountDesc e xs else e :: x :: xs

/-- `sorted(..., key=lambda x: x["count"], reverse=True)`: Python sorted
is a stable sort; modelled by stable insertion sort, which computes the
same list. -/
def sortByCountDesc (l : List SearchEntry) : List SearchEntry :=
  l.foldl (fun acc e => insertByCountDesc e acc) []

/-- `get_related_searches` (`app.py` lines 393-424) as a function of the
weather and of the persisted top-count rows returned by the database
query (empty when that query raises).  Merge seed and persisted entries,
deduplicate by query text, re-sort by count descending, take five, and
flag entries with count above ten. -/
def get_related_searches (weather : Option Weather) (popular_searches : List SHRow) :
    List SearchEntry :=
  let searches := relatedSeed weather ++ popular_searches.map convertRow
  let unique_searches := dictDedupByQuery searches
  let sorted := sortByCountDesc unique_searches
  (sorted.take 5).map (fun e => { e with is_popular := decide (e.count > 10) })

/-- An `Interaction` row (`app.py` lines 69-74); the surrogate primary
key is omitted since the four content columns identify the row in every
query the handler performs. -/
structure InteractionRow where
  user_id : Nat
  recipe_source : String
  recipe_id : String
  interaction_type : String
deriving DecidableEq

/-- A `UserRecipe` row restricted to the columns the interaction handler
touches; the primary key is modelled in its string form as it arrives in
the request. -/
structure UserRecipeRow where
  id : String
  likes : Int
  saves : Int
deriving DecidableEq

/-- The database state the interaction handler reads and writes. -/
structure DBState where
  interactions : List InteractionRow
  user_recipes : List UserRecipeRow
deriving DecidableEq

/-- The outcome reported by the `/interact` route: HTTP 429, 404, 500,
or the success JSON payload. -/
inductive InteractResp where
  | tooManyRequests
  | recipeNotFound
  | serverError
  | success (likes saves : Int) (user_liked user_saved : Bool)
deriving DecidableEq

/-- The session guard key (`app.py` line 722). -/
def interactKey (u : Nat) (source recipe_id action : String) : String :=
  "interact_" ++ toString u ++ "_" ++ source ++ "_" ++ recipe_id ++ "_" ++ action

/-- The filter used by `Interaction.query.filter_by` in the handler. -/
def interactionMatches (u : Nat) (source recipe_id action : String)
    (row : InteractionRow) : Bool :=
  row.user_id == u && row.recipe_source == source
    && row.recipe_id == recipe_id && row.interaction_type == action

/-- Apply an update to the first row satisfying the predicate (the row
object returned by the query is mutated in place). -/
def updateFirstWhere (p : α → Bool) (f : α → α) : List α → List α
  | [] => []
  | x :: xs => if p x then f x :: xs else x :: updateFirstWhere p f xs

/-- The counter increment of `app.py` lines 752-756. -/
def applyInc (action : String) (r : UserRecipeRow) : UserRecipeRow :=
  if action == "like" then { r with likes := r.likes + 1 }
  else if action == "save" then { r with saves := r.saves + 1 }
  else r

/-- The counter decrement of `app.py` lines 741-745, floored at zero. -/
def applyDec (action : String) (r : UserRecipeRow) : UserRecipeRow :=
  if action == "like" then { r with likes := max 0 (r.likes - 1) }
  else if action == "save" then { r with saves := max 0 (r.saves - 1) }
  else r

/-- The `/interact` handler (`app.py` lines 713-786) for an
authenticated user `u`.  The session is the list of set guard keys;
`commit_fails` tells whether `db.session.commit()` raises, in which case
the rollback restores the pre-request state.  The returned triple is
(response, database state, session); the `finally` clause pops the guard
key on every exit path after it was set. -/
def interact (commit_fails : Bool) (st : DBState) (sess : List String) (u : Nat)
    (source recipe_id action : String) : InteractResp × DBState × List String :=
  let key := interactKey u source recipe_id action
  if sess.contains key then (.tooManyRequests, st, sess)
  else
    let popped := (key :: sess).erase key
    let existing := st.interactions.find? (interactionMatches u source recipe_id action)
    let user_recipe :=
      if source == "user" then st.user_recipes.find? (fun r => r.id == recipe_id)
      else Option.none
    if source == "user" && user_recipe.isNone then
      (.recipeNotFound, st, popped)
    else
      let st' : DBState :=
        match existing with
        | some row =>
          { interactions := st.interactions.erase row,
            user_recipes :=
              if user_recipe.isSome then
                updateFirstWhere (fun r => r.id == recipe_id) (applyDec action) st.user_recipes
              else st.user_recipes }
        | Option.none =>
          { interactions := st.interactions
              ++ [{ user_id := u, recipe_source := source, recipe_id := recipe_id,
                    interaction_type := action }],
            user_recipes :=
              if user_recipe.isSome then
                updateFirstWhere (fun r => r.id == recipe_id) (applyInc action) st.user_recipes
              else st.user_recipes }
      if commit_fails then (.serverError, st, popped)
      else
        let likeCount : Int :=
          ((st'.interactions.filter (fun r =>
            r.recipe_source == source && r.recipe_id == recipe_id
              && r.interaction_type == "like")).length : Int)
        let saveCount : Int :=
          ((st'.interactions.filter (fun r =>
            r.recipe_source == source && r.recipe_id == recipe_id
              && r.interaction_type == "save")).length : Int)
        let counts :=
          if source == "user" then
            match st'.user_recipes.find? (fun r => r.id == recipe_id) with
            | some r => (r.likes, r.saves)
            | Option.none => (likeCount, saveCount)
          else (likeCount, saveCount)
        let user_liked := (st'.interactions.find?
          (interactionMatches u source recipe_id "like")).isSome
        let user_saved := (st'.interactions.find?
          (interactionMatches u source recipe_id "save")).isSome
        (.success counts.1 counts.2 user_liked user_saved, st', popped)

/-- The interaction row inserted by a like toggle on a user recipe. -/
@[reducible] def likeRow (u : Nat) (rid : String) : InteractionRow :=
  { user_id := u, recipe_source := "user", recipe_id := rid, interaction_type := "like" }

/-- C1 (counterexample): a 200 Spoonacular response whose record carries a
present-but-empty `image` field normalizes to a recipe whose `image` is
the empty string, contradicting the claim that the output image is never
empty. -/
theorem claim1_counterexample :
    suggest_western_recipes_by_name
      (.resp 200 (.dict [("results",
        .list [.dict [("id", .int 1), ("title", .str "Cake"), ("image", .str "")]])]))
      = .ok [{ id := .str "1", title := .str "Cake",
               source := "spoonacular", image := .str "" }] := by
  rfl

/-- C2 (counterexample): a 200 response whose record lacks the expected
`id` key makes the Western client raise an uncaught `KeyError` (the
`except` clause only catches `requests.RequestException`), contradicting
the claim that no exception ever propagates. -/
theorem claim2_counterexample :
    suggest_western_recipes_by_name
      (.resp 200 (.dict [("results", .list [.dict [("title", .str "Cake")]])]))
      = .error () := by
  rfl

/-- Binding a successful `Except` computation applies the continuation. -/
theorem exceptBind_ok (a : α) (f : α → Except ε β) : (Except.ok a >>= f) = f a := rfl

/-- Binding a failed `Except` computation propagates the failure. -/
theorem exceptBind_error (e : ε) (f : α → Except ε β) :
    ((Except.error e : Except ε α) >>= f) = .error e := rfl

/-- A successful effectful map commutes with `take`. -/
theorem mapExcept_ok_take (f : α → Except Unit β) :
    ∀ (xs : List α) (ys : List β), mapExcept f xs = .ok ys →
      ∀ (n : Nat), mapExcept f (xs.take n) = .ok (ys.take n)
  | [], ys, h, n => by
    simp only [mapExcept] at h
    cases h
    simp [mapExcept, List.take_nil]
  | _ :: _, ys, h, 0 => by
    simp only [mapExcept] at h
    simp [mapExcept, List.take_zero]
  | x :: xs, ys, h, n + 1 => by
    simp only [mapExcept] at h
    cases hfx : f x with
    | error e => rw [hfx, exceptBind_error] at h; cases h
    | ok b =>
      rw [hfx, exceptBind_ok] at h
      cases hmx : mapExcept f xs with
      | error e => rw [hmx, exceptBind_error] at h; cases h
      | ok bs =>
        rw [hmx, exceptBind_ok] at h
        cases h
        simp only [List.take_succ_cons, mapExcept, hfx, exceptBind_ok,
          mapExcept_ok_take f xs bs hmx n]

/-- A truthy Python value is never the empty string. -/
theorem truthy_ne_empty_str {v : PyVal} (h : v.truthy = true) : v ≠ PyVal.str "" := by
  intro he
  subst he
  simp [PyVal.truthy, String.isEmpty] at h

/-- C1 (amended): the regional-path image fallback chain (thumbnail →
generic `image` field → placeholder) never yields the empty string, in
both the main result mapping and the last-resort fallback formatting;
the Western path passes a present `image` field through verbatim (even
when empty) and substitutes the placeholder only when the key is absent. -/
theorem claim1_amended :
    (∀ r : PyVal, mealdbImage r ≠ .str "")
    ∧ (∀ r : PyVal, (fallbackFormat r).image ≠ .str "")
    ∧ (∀ (kvs : List (String × PyVal)) (idv titlev v : PyVal),
        dictLookup kvs "id" = some idv → dictLookup kvs "title" = some titlev →
        dictLookup kvs "image" = some v →
        normalizeSpoonacular (.dict kvs)
          = .ok { id := .str (pyStr idv), title := titlev, source := "spoonacular", image := v })
    ∧ (∀ (kvs : List (String × PyVal)) (idv titlev : PyVal),
        dictLookup kvs "id" = some idv → dictLookup kvs "title" = some titlev →
        dictLookup kvs "image" = Option.none →
        normalizeSpoonacular (.dict kvs)
          = .ok { id := .str (pyStr idv), title := titlev, source := "spoonacular",
                  image := .str default_recipe_image }) := by
  refine ⟨?_, ?_, ?_, ?_⟩
  · intro r
    unfold mealdbImage
    split
    · next h =>
      have ht : (r.idx "strMealThumb").truthy = true := by
        simp only [Bool.and_eq_true] at h
        exact h.2
      exact truthy_ne_empty_str ht
    · split
      · next h =>
        have ht : (pyGetD r "image" .none).truthy = true := by
          simp only [Bool.and_eq_true] at h
          exact h.2
        have hsame : pyGetD r "image" .none = r.idx "image" := by
          cases r <;> simp [pyGetD, PyVal.idx]
        rw [← hsame]
        exact truthy_ne_empty_str ht
      · intro he
        simp [default_recipe_image] at he
  · intro r
    unfold fallbackFormat
    simp only
    split
    · next h => exact truthy_ne_empty_str h
    · intro he
      simp [default_recipe_image] at he
  · intro kvs idv titlev v h1 h2 h3
    simp only [normalizeSpoonacular, PyVal.getItem, PyVal.dictGet, h1, h2, h3]
    rfl
  · intro kvs idv titlev h1 h2 h3
    simp only [normalizeSpoonacular, PyVal.getItem, PyVal.dictGet, h1, h2, h3]
    rfl

/-- C1 amended witness: concrete instance of the Western pass-through
conjunct. -/
theorem claim1_amended_witness :
    normalizeSpoonacular
        (.dict [("id", .int 2), ("title", .str "Tart"), ("image", .str "u.jpg")])
      = .ok { id := .str "2", title := .str "Tart", source := "spoonacular",
              image := .str "u.jpg" } :=
  claim1_amended.2.2.1 [("id", .int 2), ("title", .str "Tart"), ("image", .str "u.jpg")]
    (.int 2) (.str "Tart") (.str "u.jpg") rfl rfl rfl

/-- C2 (amended): both Western clients return `[]` without exception on a
non-200 status or a transport error; only a 200 body of unexpected shape
can raise (see the counterexample). -/
theorem claim2_amended :
    (∀ (status : Nat) (body : PyVal), status ≠ 200 →
      suggest_western_recipes_by_name (.resp status body) = .ok [])
    ∧ suggest_western_recipes_by_name .exn = .ok []
    ∧ (∀ (status : Nat) (body : PyVal), status ≠ 200 →
      suggest_western_recipes_by_ingredients (.resp status body) = .ok [])
    ∧ suggest_western_recipes_by_ingredients .exn = .ok [] := by
  refine ⟨?_, rfl, ?_, rfl⟩
  · intro status body h
    simp [suggest_western_recipes_by_name, bne, h]
  · intro status body h
    simp [suggest_western_recipes_by_ingredients, bne, h]

/-- C2 amended witness: both clients at a concrete 500 response. -/
theorem claim2_amended_witness :
    suggest_western_recipes_by_name (.resp 500 .none) = .ok []
    ∧ suggest_western_recipes_by_ingredients (.resp 500 .none) = .ok [] :=
  ⟨claim2_amended.1 500 .none (by decide), claim2_amended.2.2.1 500 .none (by decide)⟩

/-- C8: with an empty query and region `"Java"`, whenever the provider
yields no usable results the regional path returns exactly the Fallback
Catalog entries whose region equals `"Java"` case-insensitively (Soto
Ayam, Gudeg Jogja, Chicken Satay, Nasi Goreng), formatted, in catalog
order, truncated to the requested count. -/
theorem claim8 : ∀ (status : Nat) (body : PyVal) (number : Nat),
    mealdbResultsCore status body = .ok [] →
    suggest_indonesian_recipes_by_name (.resp status body) "" (some "Java") number
      = .ok (([
          { id := .str "soto", title := .str "Soto Ayam", source := "fallback",
            image := .str "https://www.themealdb.com/images/media/meals/8mpqzz1508507655.jpg" },
          { id := .str "gudeg", title := .str "Gudeg Jogja", source := "fallback",
            image := .str "https://www.themealdb.com/images/media/meals/1529445893.jpg" },
          { id := .str "satay", title := .str "Chicken Satay", source := "fallback",
            image := .str "https://www.themealdb.com/images/media/meals/1526418975.jpg" },
          { id := .str "nasi_goreng", title := .str "Nasi Goreng", source := "fallback",
            image := .str "https://www.themealdb.com/images/media/meals/1529445893.jpg" } ] :
          List Recipe).take number) := by
  intro status body number h
  simp only [suggest_indonesian_recipes_by_name, h, exceptBind_ok]
  cases number with
  | zero => rfl
  | succ m =>
    have key : mapExcept normalizeMealdb (List.take (m + 1) javaFallbackDicts)
        = .ok (List.take (m + 1) javaFallbackRecipes) :=
      mapExcept_ok_take normalizeMealdb javaFallbackDicts javaFallbackRecipes rfl (m + 1)
    have main : (do
        let formatted ← mapExcept normalizeMealdb (List.take (m + 1) javaFallbackDicts)
        if formatted.isEmpty = true then
          Except.ok (List.take (m + 1) (List.map fallbackFormat
            (List.filter (fun r => strIn (pyLower (pyStrip "")) (fallbackTitleLower r))
              fallback_recipes)))
        else Except.ok formatted) = Except.ok (List.take (m + 1) javaFallbackRecipes) := by
      rw [key]
      rfl
    exact main

/-- C8 witness: a concrete 500 response with count 5. -/
theorem claim8_witness :
    suggest_indonesian_recipes_by_name (.resp 500 .none) "" (some "Java") 5
      = .ok (([
          { id := .str "soto", title := .str "Soto Ayam", source := "fallback",
            image := .str "https://www.themealdb.com/images/media/meals/8mpqzz1508507655.jpg" },
          { id := .str "gudeg", title := .str "Gudeg Jogja", source := "fallback",
            image := .str "https://www.themealdb.com/images/media/meals/1529445893.jpg" },
          { id := .str "satay", title := .str "Chicken Satay", source := "fallback",
            image := .str "https://www.themealdb.com/images/media/meals/1526418975.jpg" },
          { id := .str "nasi_goreng", title := .str "Nasi Goreng", source := "fallback",
            image := .str "https://www.themealdb.com/images/media/meals/1529445893.jpg" } ] :
          List Recipe).take 5) :=
  claim8 500 .none 5 rfl

/-- C10: on a transport error the regional search returns the Fallback
Catalog entries whose title contains the query substring, truncated to
the count, with the region argument ignored — so for query `"rendang"`
and region `"Java"` the Sumatra-tagged Beef Rendang entry is returned. -/
theorem claim10 : ∀ (q : String) (r1 r2 : Option String) (n : Nat),
    suggest_indonesian_recipes_by_name .exn q r1 n
      = suggest_indonesian_recipes_by_name .exn q r2 n
    ∧ suggest_indonesian_recipes_by_name .exn q r1 n
      = .ok (((fallback_recipes.filter (fun r => strIn (pyLower (pyStrip q)) (fallbackTitleLower r))).map
          fallbackFormat).take n)
    ∧ suggest_indonesian_recipes_by_name .exn "rendang" (some "Java") n
      = .ok (([{ id := PyVal.str "rendang", title := PyVal.str "Beef Rendang",
                 source := "fallback",
                 image := PyVal.str "https://www.themealdb.com/images/media/meals/ypxrvg1515362401.jpg" }] :
          List Recipe).take n)
    ∧ fallback_recipes.map (fun r => (r.idx "id", r.idx "region"))
      = [(.str "rendang", .str "Sumatra"), (.str "soto", .str "Java"),
         (.str "gudeg", .str "Java"), (.str "satay", .str "Java"),
         (.str "nasi_goreng", .str "Java"),
         (.str "soto_banjar", .str "Kalimantan Selatan")] := by
  intro q r1 r2 n
  exact ⟨rfl, rfl, by rfl, by rfl⟩

theorem dedupById_eq_aux : ∀ (l : List Recipe) (acc : List Recipe) (seen : List PyVal),
    (l.foldl dedupStep (acc, seen)).1 = acc ++ dedupRec seen l
  | [], acc, seen => by simp [dedupRec]
  | r :: rs, acc, seen => by
    by_cases h : r.id ∈ seen
    · simp [List.foldl_cons, dedupStep, dedupRec, h, dedupById_eq_aux rs acc seen]
    · simp [List.foldl_cons, dedupStep, dedupRec, h,
        dedupById_eq_aux rs (acc ++ [r]) (r.id :: seen)]

theorem dedupById_eq (l : List Recipe) : dedupById l = dedupRec [] l := by
  simpa [dedupById] using dedupById_eq_aux l [] []

theorem dedupRec_sublist : ∀ (seen : List PyVal) (l : List Recipe),
    (dedupRec seen l).Sublist l
  | _, [] => by simp [dedupRec]
  | seen, r :: rs => by
    simp only [dedupRec]
    split
    · exact .cons r (dedupRec_sublist seen rs)
    · exact .cons₂ r (dedupRec_sublist (r.id :: seen) rs)

theorem dedupRec_not_seen : ∀ (seen : List PyVal) (l : List Recipe),
    ∀ r ∈ dedupRec seen l, seen.contains r.id = false
  | seen, [], r, hr => by simp [dedupRec] at hr
  | seen, r0 :: rs, r, hr => by
    simp only [dedupRec] at hr
    split at hr
    · exact dedupRec_not_seen seen rs r hr
    · next hc =>
      rcases List.mem_cons.mp hr with h | h
      · subst h
        exact Bool.eq_false_iff.mpr hc
      · have := dedupRec_not_seen (r0.id :: seen) rs r h
        simp only [List.contains_cons, Bool.or_eq_false_iff] at this
        exact this.2

theorem dedupRec_pairwise : ∀ (seen : List PyVal) (l : List Recipe),
    (dedupRec seen l).Pairwise (fun a b => a.id ≠ b.id)
  | _, [] => by simp [dedupRec]
  | seen, r :: rs => by
    simp only [dedupRec]
    split
    · exact dedupRec_pairwise seen rs
    · refine List.Pairwise.cons ?_ (dedupRec_pairwise (r.id :: seen) rs)
      intro b hb he
      have := dedupRec_not_seen (r.id :: seen) rs b hb
      simp [List.contains_cons, ← he] at this

theorem dedupRec_filter : ∀ (seen : List PyVal) (l : List Recipe) (x : PyVal),
    (dedupRec seen l).filter (fun r => r.id == x)
      = if x ∈ seen then [] else (l.find? (fun r => r.id == x)).toList
  | seen, [], x => by
    by_cases hx : x ∈ seen <;> simp [dedupRec, hx]
  | seen, r :: rs, x => by
    by_cases hc : r.id ∈ seen
    · have hstep : dedupRec seen (r :: rs) = dedupRec seen rs := by simp [dedupRec, hc]
      rw [hstep, dedupRec_filter seen rs x]
      by_cases hx : x ∈ seen
      · simp [hx]
      · have hne : (r.id == x) = false := by
          refine beq_eq_false_iff_ne.mpr ?_
          intro he
          exact hx (he ▸ hc)
        simp [hx, List.find?, hne]
    · have hstep : dedupRec seen (r :: rs) = r :: dedupRec (r.id :: seen) rs := by
        simp [dedupRec, hc]
      rw [hstep]
      by_cases he : r.id = x
      · subst he
        have h1 := dedupRec_filter (r.id :: seen) rs r.id
        rw [if_pos (List.mem_cons_self _ _)] at h1
        simp [List.filter, h1, hc, List.find?]
      · have hne : (r.id == x) = false := beq_eq_false_iff_ne.mpr he
        have h1 := dedupRec_filter (r.id :: seen) rs x
        have hxne : ¬ x = r.id := fun hh => he hh.symm
        simp only [List.mem_cons, hxne, false_or] at h1
        simp [List.filter, hne, h1, List.find?]

/-- C3: branch precedence of the weather recommendation.  At 15°C with
condition `"Rain"` the soup candidates are appended (not salad); at 35°C
with `"Clear"` the salad candidates are appended; at 25°C with `"Clear"`
exactly the random sample is appended — in every case before the region
candidates; and the random sample has length exactly 1 whenever the
pooled sources are non-empty. -/
theorem claim3 : ∀ (env : ProviderEnv) (region : Option String),
    (recCandidates env { city := "C", condition := "rain", temp := 15, weather_main := "Rain" } region
      = env.western_by_name "soup" 1 ++ env.indonesian_by_name "soto" region 1
        ++ regionCandidates env region)
    ∧ (recCandidates env { city := "C", condition := "clear", temp := 35, weather_main := "Clear" } region
      = env.western_by_name "salad" 1 ++ env.indonesian_by_name "rujak" region 1
        ++ regionCandidates env region)
    ∧ (recCandidates env { city := "C", condition := "clear", temp := 25, weather_main := "Clear" } region
      = get_random_recipes env 1 ++ regionCandidates env region)
    ∧ (0 < (env.western_by_name "main course" 1 ++ env.indonesian_by_name "indonesian" Option.none 1
          ++ env.user_recipes 1).length →
        (get_random_recipes env 1).length = 1) := by
  intro env region
  refine ⟨rfl, rfl, rfl, ?_⟩
  intro h
  have hlen := env.sample_length
    (env.western_by_name "main course" 1 ++ env.indonesian_by_name "indonesian" Option.none 1
      ++ env.user_recipes 1)
    (min 1 (env.western_by_name "main course" 1
      ++ env.indonesian_by_name "indonesian" Option.none 1 ++ env.user_recipes 1).length)
    (Nat.min_le_right _ _)
  calc (get_random_recipes env 1).length
      = min 1 (env.western_by_name "main course" 1
          ++ env.indonesian_by_name "indonesian" Option.none 1 ++ env.user_recipes 1).length :=
        hlen
    _ = 1 := Nat.min_eq_left h

/-- C3 witness: in the concrete environment the pooled sources are
non-empty and the random sample indeed has length 1. -/
theorem claim3_witness : (get_random_recipes testEnv 1).length = 1 :=
  (claim3 testEnv Option.none).2.2.2 (by decide)

/-- C4: recommendations deduplicate by the `id` field alone.  The final
result is the deduplicated candidate list truncated to `number`; the
dedup output is an order-preserving sublist, its ids are pairwise
distinct, for every id exactly the first occurrence survives, and two
recipes from different sources sharing an id collapse to the first. -/
theorem claim4 : ∀ (env : ProviderEnv) (w : Weather) (region : Option String)
    (number : Nat) (l : List Recipe) (x : PyVal),
    get_recommendations_based_on_weather_and_region env (some w) region number
      = (dedupById (recCandidates env w region)).take number
    ∧ (dedupById l).Sublist l
    ∧ (dedupById l).Pairwise (fun a b => a.id ≠ b.id)
    ∧ (dedupById l).filter (fun r => r.id == x) = (l.find? (fun r => r.id == x)).toList
    ∧ dedupById
        [{ id := .str "7", title := .str "A", source := "spoonacular", image := .none },
         { id := .str "7", title := .str "B", source := "themealdb", image := .none }]
      = [{ id := .str "7", title := .str "A", source := "spoonacular", image := .none }] := by
  intro env w region number l x
  refine ⟨rfl, ?_, ?_, ?_, by rfl⟩
  · rw [dedupById_eq]
    exact dedupRec_sublist [] l
  · rw [dedupById_eq]
    exact dedupRec_pairwise [] l
  · rw [dedupById_eq, dedupRec_filter [] l x]
    simp

theorem dictDedup_concat (l : List SearchEntry) (e : SearchEntry) :
    dictDedupByQuery (l ++ [e]) = upsertByQuery (dictDedupByQuery l) e := by
  simp [dictDedupByQuery, List.foldl_append]

/-- The dict-based dedup keeps one entry per query text: its keys are
distinct, every kept entry is the last occurrence of its query in the
input (last write wins), and every input query is represented. -/
theorem dictDedup_spec : ∀ (l : List SearchEntry),
    ((dictDedupByQuery l).map (fun e => e.query)).Nodup
    ∧ (∀ x ∈ dictDedupByQuery l,
        (l.filter (fun s => s.query == x.query)).getLast? = some x)
    ∧ (∀ y ∈ l, ∃ x ∈ dictDedupByQuery l, x.query = y.query) := by
  intro l
  induction l using List.reverseRecOn with
  | nil => simp [dictDedupByQuery]
  | append_singleton l e ih =>
    obtain ⟨ih1, ih2, ih3⟩ := ih
    rw [dictDedup_concat]
    by_cases hany : (dictDedupByQuery l).any (fun x => x.query == e.query) = true
    · have hupsert : upsertByQuery (dictDedupByQuery l) e
          = (dictDedupByQuery l).map (fun x => if x.query == e.query then e else x) := by
        simp [upsertByQuery, hany]
      have hq_pres : ∀ a : SearchEntry,
          (if a.query == e.query then e else a).query = a.query := by
        intro a
        by_cases hq : (a.query == e.query) = true
        · simp [hq, (eq_of_beq hq).symm]
        · simp [hq]
      have hkeys : ((dictDedupByQuery l).map (fun x => if x.query == e.query then e else x)).map
            (fun e => e.query)
          = (dictDedupByQuery l).map (fun e => e.query) := by
        rw [List.map_map]
        exact List.map_congr_left (fun a _ => hq_pres a)
      refine ⟨?_, ?_, ?_⟩
      · rw [hupsert, hkeys]
        exact ih1
      · rw [hupsert]
        intro x hx
        obtain ⟨y, hy, rfl⟩ := List.mem_map.mp hx
        by_cases hq : (y.query == e.query) = true
        · have hfy : (if y.query == e.query then e else y) = e := by simp [hq]
          rw [hfy, List.filter_append]
          simp [List.getLast?_concat]
        · have hfy : (if y.query == e.query then e else y) = y := by simp [hq]
          rw [hfy, List.filter_append]
          have hne2 : (e.query == y.query) = false := by
            refine beq_eq_false_iff_ne.mpr ?_
            intro hh
            exact (by simpa using hq : ¬ (y.query == e.query) = true)
              (by simp [hh])
          simp only [List.filter_cons, hne2, Bool.false_eq_true, if_false,
            List.filter_nil, List.append_nil]
          exact ih2 y hy
      · rw [hupsert]
        intro y hy
        rcases List.mem_append.mp hy with hyl | hye
        · obtain ⟨x, hx, hxy⟩ := ih3 y hyl
          exact ⟨_, List.mem_map_of_mem _ hx, by rw [hq_pres x]; exact hxy⟩
        · obtain ⟨z, hz, hzq⟩ := List.any_eq_true.mp hany
          have hye2 : y = e := by simpa using hye
          refine ⟨_, List.mem_map_of_mem _ hz, ?_⟩
          rw [hye2]
          simp [hzq]
    · have hupsert : upsertByQuery (dictDedupByQuery l) e
          = dictDedupByQuery l ++ [e] := by
        simp only [upsertByQuery]
        rw [if_neg (by simpa using hany)]
      have hall : ∀ z ∈ dictDedupByQuery l, (z.query == e.query) = false := by
        intro z hz
        rcases Bool.eq_false_or_eq_true (z.query == e.query) with h | h
        · exact absurd (List.any_eq_true.mpr ⟨z, hz, h⟩) hany
        · exact h
      refine ⟨?_, ?_, ?_⟩
      · rw [hupsert, List.map_append]
        simp only [List.map_cons, List.map_nil]
        rw [List.nodup_append]
        refine ⟨ih1, List.nodup_singleton _, ?_⟩
        intro a ha hb
        obtain ⟨z, hz, rfl⟩ := List.mem_map.mp ha
        have : z.query = e.query := by simpa using hb
        exact absurd (beq_iff_eq.mpr this) (by simp [hall z hz])
      · rw [hupsert]
        intro x hx
        rcases List.mem_append.mp hx with hxD | hxe
        · have hne2 : (e.query == x.query) = false := by
            refine beq_eq_false_iff_ne.mpr ?_
            intro hh
            exact absurd (beq_iff_eq.mpr hh.symm) (by simp [hall x hxD])
          rw [List.filter_append]
          simp only [List.filter_cons, hne2, Bool.false_eq_true, if_false,
            List.filter_nil, List.append_nil]
          exact ih2 x hxD
        · have hxe2 : x = e := by simpa using hxe
          subst hxe2
          rw [List.filter_append]
          simp [List.getLast?_concat]
      · rw [hupsert]
        intro y hy
        rcases List.mem_append.mp hy with hyl | hye
        · obtain ⟨x, hx, hxy⟩ := ih3 y hyl
          exact ⟨x, List.mem_append_left _ hx, hxy⟩
        · have hye2 : y = e := by simpa using hye
          exact ⟨e, List.mem_append_right _ (by simp), by rw [hye2]⟩

theorem insertByCountDesc_perm (e : SearchEntry) : ∀ (l : List SearchEntry),
    (insertByCountDesc e l).Perm (e :: l)
  | [] => List.Perm.refl _
  | x :: xs => by
    simp only [insertByCountDesc]
    split
    · exact (List.Perm.cons x (insertByCountDesc_perm e xs)).trans (List.Perm.swap e x xs)
    · exact List.Perm.refl _

theorem sortByCountDesc_perm_aux : ∀ (l acc : List SearchEntry),
    (l.foldl (fun acc e => insertByCountDesc e acc) acc).Perm (acc ++ l)
  | [], acc => by simp
  | e :: rs, acc => by
    simp only [List.foldl_cons]
    refine (sortByCountDesc_perm_aux rs (insertByCountDesc e acc)).trans ?_
    refine (((insertByCountDesc_perm e acc).append_right rs).trans ?_)
    exact List.perm_middle.symm

theorem sortByCountDesc_perm (l : List SearchEntry) : (sortByCountDesc l).Perm l := by
  simpa [sortByCountDesc] using sortByCountDesc_perm_aux l []

theorem insertByCountDesc_sorted (e : SearchEntry) : ∀ (l : List SearchEntry),
    l.Pairwise (fun a b => b.count ≤ a.count) →
      (insertByCountDesc e l).Pairwise (fun a b => b.count ≤ a.count)
  | [], _ => by simp [insertByCountDesc]
  | x :: xs, h => by
    obtain ⟨hx, hxs⟩ := List.pairwise_cons.mp h
    simp only [insertByCountDesc]
    split
    · next hle =>
      refine List.pairwise_cons.mpr ⟨?_, insertByCountDesc_sorted e xs hxs⟩
      intro b hb
      rcases List.mem_cons.mp ((insertByCountDesc_perm e xs).mem_iff.mp hb) with hbe | hbxs
      · rw [hbe]; exact hle
      · exact hx b hbxs
    · next hgt =>
      have hxe : x.count ≤ e.count := le_of_lt (lt_of_not_le hgt)
      refine List.pairwise_cons.mpr ⟨?_, h⟩
      intro b hb
      rcases List.mem_cons.mp hb with hbx | hbxs
      · rw [hbx]; exact hxe
      · exact (hx b hbxs).trans hxe

theorem sortByCountDesc_sorted_aux : ∀ (l acc : List SearchEntry),
    acc.Pairwise (fun a b => b.count ≤ a.count) →
      (l.foldl (fun acc e => insertByCountDesc e acc) acc).Pairwise
        (fun a b => b.count ≤ a.count)
  | [], _, h => h
  | e :: rs, acc, h =>
    sortByCountDesc_sorted_aux rs (insertByCountDesc e acc) (insertByCountDesc_sorted e acc h)

theorem sortByCountDesc_sorted (l : List SearchEntry) :
    (sortByCountDesc l).Pairwise (fun a b => b.count ≤ a.count) :=
  sortByCountDesc_sorted_aux l [] (by simp)

/-- C9: the related-searches result merges the curated seed (five fixed
entries, a "soup" count-15 entry prepended exactly when the weather
mentions rain) with the persisted entries, deduplicates by query text
with last-write (persisted) winning, re-sorts by count descending, takes
the top five, and flags an entry popular exactly when its count exceeds
ten: the output has at most five entries, is sorted by count descending,
has pairwise distinct query texts, each entry is the flagged last
occurrence of its query in the seed-then-persisted concatenation, and
its flag equals `count > 10`. -/
theorem claim9 : ∀ (weather : Option Weather) (popular : List SHRow),
    (get_related_searches weather popular).length ≤ 5
    ∧ (get_related_searches weather popular).Pairwise (fun a b => b.count ≤ a.count)
    ∧ (∀ e ∈ get_related_searches weather popular, e.is_popular = decide (e.count > 10))
    ∧ ((get_related_searches weather popular).map (fun e => e.query)).Nodup
    ∧ (∀ e ∈ get_related_searches weather popular, ∃ e0 : SearchEntry,
        ((relatedSeed weather ++ popular.map convertRow).filter
            (fun s => s.query == e0.query)).getLast? = some e0
        ∧ e = { e0 with is_popular := decide (e0.count > 10) })
    ∧ relatedSeed Option.none = relatedSeedBase
    ∧ (∀ w : Weather, strIn "rain" (pyLower w.weather_main) = true →
        relatedSeed (some w) = soupSeedEntry :: relatedSeedBase)
    ∧ relatedSeedBase.length = 5 := by
  intro weather popular
  obtain ⟨hnodup, hlast, -⟩ :=
    dictDedup_spec (relatedSeed weather ++ popular.map convertRow)
  have hperm :=
    sortByCountDesc_perm (dictDedupByQuery (relatedSeed weather ++ popular.map convertRow))
  refine ⟨?_, ?_, ?_, ?_, ?_, rfl, ?_, rfl⟩
  · simp only [get_related_searches, List.length_map, List.length_take]
    exact min_le_left _ _
  · have hs := sortByCountDesc_sorted
      (dictDedupByQuery (relatedSeed weather ++ popular.map convertRow))
    have htake := hs.sublist (List.take_sublist 5 _)
    simp only [get_related_searches]
    exact List.pairwise_map.mpr htake
  · intro e he
    simp only [get_related_searches, List.mem_map] at he
    obtain ⟨e0, _, rfl⟩ := he
    rfl
  · simp only [get_related_searches, List.map_map]
    have hqeq : ((sortByCountDesc (dictDedupByQuery
          (relatedSeed weather ++ popular.map convertRow))).take 5).map
        ((fun e => e.query) ∘ (fun e => { e with is_popular := decide (e.count > 10) }))
        = ((sortByCountDesc (dictDedupByQuery
            (relatedSeed weather ++ popular.map convertRow))).take 5).map
          (fun e => e.query) := by
      exact List.map_congr_left (fun a _ => rfl)
    rw [hqeq]
    have hsnodup : ((sortByCountDesc (dictDedupByQuery
        (relatedSeed weather ++ popular.map convertRow))).map (fun e => e.query)).Nodup :=
      ((hperm.map (fun e => e.query)).nodup_iff).mpr hnodup
    exact hsnodup.sublist ((List.take_sublist 5 _).map _)
  · intro e he
    simp only [get_related_searches, List.mem_map] at he
    obtain ⟨e0, he0, rfl⟩ := he
    have he0s : e0 ∈ sortByCountDesc (dictDedupByQuery
        (relatedSeed weather ++ popular.map convertRow)) :=
      List.mem_of_mem_take he0
    exact ⟨e0, hlast e0 (hperm.mem_iff.mp he0s), rfl⟩
  · intro w h
    simp [relatedSeed, h]

/-- C9 witness: with no weather and no persisted rows, the Beef Rendang
seed entry (count 12) appears flagged popular, and its flag equals
`count > 10` as the theorem states. -/
theorem claim9_witness :
    ({ query := "rendang", cuisine := some "indonesian", region := some "Sumatra",
       title := "Beef Rendang", count := 12, is_popular := true } : SearchEntry).is_popular
      = decide
        (({ query := "rendang", cuisine := some "indonesian", region := some "Sumatra",
            title := "Beef Rendang", count := 12, is_popular := true } : SearchEntry).count
          > 10) :=
  (claim9 Option.none []).2.2.1 _ (by decide)

theorem find?_append_of_none (p : α → Bool) :
    ∀ (l : List α) (x : α), l.find? p = Option.none → p x = true →
      (l ++ [x]).find? p = some x
  | [], x, _, hx => by simp [List.find?_cons_of_pos _ hx]
  | y :: ys, x, h, hx => by
    cases hpy : p y with
    | true => rw [List.find?_cons_of_pos _ hpy] at h; cases h
    | false =>
      rw [List.find?_cons_of_neg _ (by simp [hpy])] at h
      rw [List.cons_append, List.find?_cons_of_neg _ (by simp [hpy])]
      exact find?_append_of_none p ys x h hx

theorem find?_updateFirstWhere (p : α → Bool) (f : α → α) :
    ∀ (l : List α) (a : α), l.find? p = some a → p (f a) = true →
      (updateFirstWhere p f l).find? p = some (f a)
  | [], a, h, _ => by simp [List.find?] at h
  | x :: xs, a, h, hf => by
    cases hpx : p x with
    | true =>
      rw [List.find?_cons_of_pos _ hpx] at h
      injection h with h'
      subst h'
      simp [updateFirstWhere, hpx, List.find?_cons_of_pos _ hf]
    | false =>
      rw [List.find?_cons_of_neg _ (by simp [hpx])] at h
      simp only [updateFirstWhere, hpx, Bool.false_eq_true, if_false]
      rw [List.find?_cons_of_neg _ (by simp [hpx])]
      exact find?_updateFirstWhere p f xs a h hf

theorem updateFirstWhere_comp (p : α → Bool) (f g : α → α)
    (hpres : ∀ x, p (g x) = p x) :
    ∀ l, updateFirstWhere p f (updateFirstWhere p g l)
      = updateFirstWhere p (fun x => f (g x)) l
  | [] => rfl
  | x :: xs => by
    cases hpx : p x with
    | true => simp [updateFirstWhere, hpx, hpres x]
    | false => simp [updateFirstWhere, hpx, updateFirstWhere_comp p f g hpres xs]

theorem updateFirstWhere_eq_self (p : α → Bool) (f : α → α) :
    ∀ (l : List α) (a : α), l.find? p = some a → f a = a → updateFirstWhere p f l = l
  | [], a, h, _ => by simp [List.find?] at h
  | x :: xs, a, h, hfa => by
    cases hpx : p x with
    | true =>
      rw [List.find?_cons_of_pos _ hpx] at h
      injection h with h'
      subst h'
      simp [updateFirstWhere, hpx, hfa]
    | false =>
      rw [List.find?_cons_of_neg _ (by simp [hpx])] at h
      simp [updateFirstWhere, hpx, updateFirstWhere_eq_self p f xs a h hfa]

theorem interactionMatches_iff (u : Nat) (s rid a : String) (row : InteractionRow) :
    interactionMatches u s rid a row = true
      ↔ row = { user_id := u, recipe_source := s, recipe_id := rid, interaction_type := a } := by
  cases row
  simp [interactionMatches, and_assoc]

theorem applyInc_id (a : String) (r : UserRecipeRow) : (applyInc a r).id = r.id := by
  simp only [applyInc]
  split
  · rfl
  · split <;> rfl

theorem applyDec_id (a : String) (r : UserRecipeRow) : (applyDec a r).id = r.id := by
  simp only [applyDec]
  split
  · rfl
  · split <;> rfl

theorem interact_user_insert (st : DBState) (sess : List String) (u : Nat)
    (rid action : String) (r0 : UserRecipeRow)
    (h1 : sess.contains (interactKey u "user" rid action) = false)
    (h2 : st.interactions.find? (interactionMatches u "user" rid action) = Option.none)
    (h3 : st.user_recipes.find? (fun r => r.id == rid) = some r0) :
    (interact false st sess u "user" rid action).2.1
      = { interactions := st.interactions
            ++ [{ user_id := u, recipe_source := "user", recipe_id := rid,
                  interaction_type := action }],
          user_recipes :=
            updateFirstWhere (fun r => r.id == rid) (applyInc action) st.user_recipes }
    ∧ (interact false st sess u "user" rid action).2.2 = sess := by
  have h1m : interactKey u "user" rid action ∉ sess := by simpa using h1
  constructor <;>
    simp [interact, h1m, h2, h3, List.erase_cons_head]

theorem interact_user_delete (st : DBState) (sess : List String) (u : Nat)
    (rid action : String) (r0 : UserRecipeRow) (row : InteractionRow)
    (h1 : sess.contains (interactKey u "user" rid action) = false)
    (h2 : st.interactions.find? (interactionMatches u "user" rid action) = some row)
    (h3 : st.user_recipes.find? (fun r => r.id == rid) = some r0) :
    (interact false st sess u "user" rid action).2.1
      = { interactions := st.interactions.erase row,
          user_recipes :=
            updateFirstWhere (fun r => r.id == rid) (applyDec action) st.user_recipes }
    ∧ (interact false st sess u "user" rid action).2.2 = sess := by
  have h1m : interactKey u "user" rid action ∉ sess := by simpa using h1
  constructor <;>
    simp [interact, h1m, h2, h3, List.erase_cons_head]

/-- C6: the duplicate-submission guard.  A request whose guard key is
already in the session is rejected with the too-many-requests signal and
changes nothing; and for every request that enters the handler (any
commit outcome, any state — covering the success, not-found and error
exits) the guard key is absent from the session afterwards. -/
theorem claim6 :
    (∀ (cf : Bool) (st : DBState) (sess : List String) (u : Nat) (s rid a : String),
      sess.contains (interactKey u s rid a) = true →
        interact cf st sess u s rid a = (.tooManyRequests, st, sess))
    ∧ (∀ (cf : Bool) (st : DBState) (sess : List String) (u : Nat) (s rid a : String),
      sess.contains (interactKey u s rid a) = false →
        (interact cf st sess u s rid a).2.2 = sess) := by
  constructor
  · intro cf st sess u s rid a h
    have hm : interactKey u s rid a ∈ sess := by simpa using h
    simp [interact, hm]
  · intro cf st sess u s rid a h
    have hme : interactKey u s rid a ∉ sess := by simpa using h
    by_cases hsu : (s == "user") = true
    · rcases hfind : List.find? (fun r => r.id == rid) st.user_recipes with _ | r0
      · simp [interact, hme, hsu, hfind, List.erase_cons_head]
      · cases cf <;> simp [interact, hme, hsu, hfind, List.erase_cons_head]
    · have hsu2 : (s == "user") = false := by simpa using hsu
      cases cf <;> simp [interact, hme, hsu2, List.erase_cons_head]

/-- C6 witness: a concrete duplicate submission is rejected, and a
concrete fresh submission leaves the session clean. -/
theorem claim6_witness :
    interact false { interactions := [], user_recipes := [] }
        [interactKey 1 "x" "y" "like"] 1 "x" "y" "like"
      = (.tooManyRequests, { interactions := [], user_recipes := [] },
          [interactKey 1 "x" "y" "like"])
    ∧ (interact false { interactions := [], user_recipes := [] } [] 1 "x" "y" "like").2.2
      = ([] : List String) :=
  ⟨claim6.1 false _ _ 1 "x" "y" "like" (by simp),
   claim6.2 false _ _ 1 "x" "y" "like" (by simp)⟩

/-- C7: when the commit fails on any toggle that reaches it, the state
is rolled back unchanged, the generic operation-failed error is
reported, and the guard key is released. -/
theorem claim7 : ∀ (st : DBState) (sess : List String) (u : Nat) (s rid a : String),
    sess.contains (interactKey u s rid a) = false →
    (s = "user" → (st.user_recipes.find? (fun r => r.id == rid)).isSome = true) →
    interact true st sess u s rid a = (.serverError, st, sess) := by
  intro st sess u s rid a h1 h2
  have hm : interactKey u s rid a ∉ sess := by simpa using h1
  by_cases hs : s = "user"
  · subst hs
    obtain ⟨r0, hr0⟩ := Option.isSome_iff_exists.mp (h2 rfl)
    simp [interact, hm, hr0, List.erase_cons_head]
  · have hs2 : (s == "user") = false := by simp [hs]
    simp [interact, hm, hs2, List.erase_cons_head]

/-- C7 witness: concrete commit failure on a user-recipe like. -/
theorem claim7_witness :
    interact true
        { interactions := [], user_recipes := [{ id := "9", likes := 0, saves := 0 }] }
        [] 1 "user" "9" "like"
      = (.serverError,
          { interactions := [], user_recipes := [{ id := "9", likes := 0, saves := 0 }] },
          ([] : List String)) :=
  claim7 _ [] 1 "user" "9" "like" rfl (fun _ => rfl)

/-- C5: the like toggle for a user-recipe key starting ABSENT with likes
counter `L ≥ 0`: one toggle inserts the interaction row (ABSENT to
ACTIVE) and sets the counter to `L + 1`; toggling again on the resulting
state (the guard does not collide since the session was restored)
returns the whole database state, counter included, to the original; and
on a key starting ACTIVE with counter already at zero, the decrement is
floored at zero. -/
theorem claim5 :
    (∀ (st : DBState) (sess : List String) (u : Nat) (rid : String)
        (r0 : UserRecipeRow) (L : Int),
      sess.contains (interactKey u "user" rid "like") = false →
      st.interactions.find? (interactionMatches u "user" rid "like") = Option.none →
      st.user_recipes.find? (fun r => r.id == rid) = some r0 →
      r0.likes = L → 0 ≤ L →
      ((interact false st sess u "user" rid "like").2.2 = sess
      ∧ (interact false st sess u "user" rid "like").2.1.interactions.find?
          (interactionMatches u "user" rid "like")
        = some (likeRow u rid)
      ∧ (interact false st sess u "user" rid "like").2.1.user_recipes.find?
          (fun r => r.id == rid)
        = some { r0 with likes := L + 1 }
      ∧ (interact false
          (interact false st sess u "user" rid "like").2.1
          (interact false st sess u "user" rid "like").2.2 u "user" rid "like").2.1 = st
      ∧ (interact false
          (interact false st sess u "user" rid "like").2.1
          (interact false st sess u "user" rid "like").2.2 u "user" rid "like").2.2 = sess))
    ∧ (∀ (st : DBState) (sess : List String) (u : Nat) (rid : String)
        (r0 : UserRecipeRow) (row : InteractionRow),
      sess.contains (interactKey u "user" rid "like") = false →
      st.interactions.find? (interactionMatches u "user" rid "like") = some row →
      st.user_recipes.find? (fun r => r.id == rid) = some r0 →
      r0.likes = 0 →
      (interact false st sess u "user" rid "like").2.1.user_recipes.find?
          (fun r => r.id == rid)
        = some { r0 with likes := 0 }) := by
  constructor
  · intro st sess u rid r0 L h1 h2 h3 hL hpos
    obtain ⟨hSt1, hSess1⟩ := interact_user_insert st sess u rid "like" r0 h1 h2 h3
    have hp0 : (r0.id == rid) = true := by
      simpa using List.find?_some h3
    have hrow : interactionMatches u "user" rid "like"
        (likeRow u rid) = true := by
      simp [interactionMatches]
    have hIncEq : applyInc "like" r0 = { r0 with likes := r0.likes + 1 } := by
      simp [applyInc]
    have hpInc : ((applyInc "like" r0).id == rid) = true := by
      rw [applyInc_id]
      exact hp0
    have hb : (interact false st sess u "user" rid "like").2.1.interactions.find?
        (interactionMatches u "user" rid "like")
        = some (likeRow u rid) := by
      rw [hSt1]
      exact find?_append_of_none _ _ _ h2 hrow
    have hc : (interact false st sess u "user" rid "like").2.1.user_recipes.find?
        (fun r => r.id == rid) = some (applyInc "like" r0) := by
      rw [hSt1]
      exact find?_updateFirstWhere _ _ _ _ h3 hpInc
    obtain ⟨hSt2, hSess2⟩ := interact_user_delete
      (interact false st sess u "user" rid "like").2.1
      (interact false st sess u "user" rid "like").2.2 u rid "like"
      (applyInc "like" r0)
      (likeRow u rid)
      (by rw [hSess1]; exact h1) hb hc
    have hrow_notin : likeRow u rid ∉ st.interactions := by
      intro hmem
      exact (List.find?_eq_none.mp h2) _ hmem (by simpa using hrow)
    have e1 : ((st.interactions ++ [likeRow u rid]).erase (likeRow u rid))
        = st.interactions := by
      rw [List.erase_append_right _ hrow_notin, List.erase_cons_head, List.append_nil]
    have e2 : updateFirstWhere (fun r => r.id == rid) (applyDec "like")
        (updateFirstWhere (fun r => r.id == rid) (applyInc "like") st.user_recipes)
        = st.user_recipes := by
      rw [updateFirstWhere_comp (fun r => r.id == rid) (applyDec "like") (applyInc "like")
        (fun x => by simp only [applyInc_id])]
      refine updateFirstWhere_eq_self _ _ _ _ h3 ?_
      cases r0 with
      | mk i lk sv =>
        dsimp only at hL
        simp [applyInc, applyDec, UserRecipeRow.mk.injEq]
        omega
    rw [hSt1] at hSt2
    dsimp only at hSt2
    rw [e1, e2] at hSt2
    refine ⟨hSess1, hb, ?_, ?_, ?_⟩
    · rw [hc, hIncEq, hL]
    · rw [hSt1, hSt2]
    · rw [hSess2, hSess1]
  · intro st sess u rid r0 row h1 h2 h3 h0
    obtain ⟨hSt1, -⟩ := interact_user_delete st sess u rid "like" r0 row h1 h2 h3
    have hp0 : (r0.id == rid) = true := by
      simpa using List.find?_some h3
    have hpDec : ((applyDec "like" r0).id == rid) = true := by
      rw [applyDec_id]
      exact hp0
    rw [hSt1, find?_updateFirstWhere (fun r => r.id == rid) (applyDec "like")
      st.user_recipes r0 h3 hpDec]
    cases r0 with
    | mk i lk sv =>
      dsimp only at h0
      subst h0
      simp [applyDec]

/-- C5 witness: a concrete double toggle on user recipe "7" with zero
likes, exercising every conjunct of the theorem. -/
theorem claim5_witness :
    (interact false { interactions := [], user_recipes := [{ id := "7", likes := 0, saves := 0 }] } [] 1 "user" "7" "like").2.2 = []
    ∧ (interact false { interactions := [], user_recipes := [{ id := "7", likes := 0, saves := 0 }] } [] 1 "user" "7" "like").2.1.interactions.find? (interactionMatches 1 "user" "7" "like") = some (likeRow 1 "7")
    ∧ (interact false { interactions := [], user_recipes := [{ id := "7", likes := 0, saves := 0 }] } [] 1 "user" "7" "like").2.1.user_recipes.find? (fun r => r.id == "7") = some { id := "7", likes := 0 + 1, saves := 0 }
    ∧ (interact false
        (interact false { interactions := [], user_recipes := [{ id := "7", likes := 0, saves := 0 }] } [] 1 "user" "7" "like").2.1
        (interact false { interactions := [], user_recipes := [{ id := "7", likes := 0, saves := 0 }] } [] 1 "user" "7" "like").2.2 1 "user" "7" "like").2.1
      = { interactions := [], user_recipes := [{ id := "7", likes := 0, saves := 0 }] }
    ∧ (interact false
        (interact false { interactions := [], user_recipes := [{ id := "7", likes := 0, saves := 0 }] } [] 1 "user" "7" "like").2.1
        (interact false { interactions := [], user_recipes := [{ id := "7", likes := 0, saves := 0 }] } [] 1 "user" "7" "like").2.2 1 "user" "7" "like").2.2
      = ([] : List String) :=
  claim5.1 { interactions := [], user_recipes := [{ id := "7", likes := 0, saves := 0 }] } []
    1 "7" { id := "7", likes := 0, saves := 0 } 0 rfl rfl rfl rfl le_rfl
